import Mathlib

/-!
Verification of the qxeventd event-lifecycle service.

This file gives a shallow embedding of the parts of the code that the
specification talks about:

* `src/eventnode.rs` — the path router (`NodeType::from_path`, the request
  handler arms for `createEvent`, `openEvent`, `info`, `close`) and the
  mount-point string built for the broker;
* `src/state.rs` — the lifecycle manager (`State::create_event`,
  `State::open_event`, `State::close_event`, `State::event_data_from_sql`)
  together with the `EventData` / `OpenEvent` records;
* `src/migrate.rs` — the persisted schema of the `events` table;
* `src/sql.rs` and `src/events.rs` — the conversions from the dynamic
  scalar types (`DbValue`, `RpcValue`) to SQL parameter values.

Machine integers (`i64`) are modelled as `Int` with the explicit `i64`
bounds where the code can overflow (string parsing).  The `BTreeMap` of
open events is modelled as an association list whose operations mirror
the map semantics (insert replaces, keys stay unique).  External effects
(SQLite row storage behind the pool, the chrono clock, the random token
generator, file-system and process-spawn outcomes, the OS process table)
are passed in explicitly as parameters or carried as extra state so that
the functions stay pure and executable.
-/

/-- Unix-epoch timestamp standing for `chrono::DateTime<chrono::Utc>`;
the concrete calendar rendering is irrelevant to every claim. -/
abbrev DateTimeUtc := Int

/-- Rendering of a timestamp as RFC-3339 text (`chrono`'s `to_rfc3339`).
The exact text produced by chrono is external to this repository; it is
modelled as an injective rendering into a text value. -/
def to_rfc3339 (t : DateTimeUtc) : String :=
  "rfc3339:" ++ toString t

/-- Event id, `pub type EventId = i64` in `src/state.rs`. -/
abbrev EventId := Int

/-- Application-level event fields, `struct EventData` in `src/state.rs`
(fields `name`, `date`, `owner`, `is_local`; note there is no token field). -/
structure EventData where
  name : String
  date : DateTimeUtc
  owner : String
  is_local : Bool
deriving Repr, DecidableEq

/-- Runtime-only record for an open event, `struct OpenEvent` in
`src/state.rs`: the event data plus the optionally owned child process
(`qxsql_process : Option<Child>`), modelled by the child's pid. -/
structure OpenEvent where
  data : EventData
  qxsql_process : Option Nat
deriving Repr, DecidableEq

/-- One persisted row of the application `events` store as written by
`State::create_event`: the generated row id, the `data` blob (the
`serde_json` round-trip of `EventData` is modelled structurally) and the
`api_token` column. -/
structure EventRow where
  id : EventId
  data : EventData
  api_token : String
deriving Repr, DecidableEq

/-- The shared application state of `src/state.rs` (`db_pool` plus
`open_events`), with the database content behind the pool made explicit,
and extended by the OS process table (`running`) so that liveness of the
spawned `qxsqld` children can be stated. -/
structure State where
  db : List EventRow
  open_events : List (EventId × OpenEvent)
  running : List Nat
deriving Repr, DecidableEq

/-- Membership test of the open-events `BTreeMap` (`contains_key`). -/
def mapContains (m : List (EventId × OpenEvent)) (k : EventId) : Bool :=
  m.any (fun p => p.1 == k)

/-- Lookup in the open-events `BTreeMap` (`get`). -/
def mapLookup (m : List (EventId × OpenEvent)) (k : EventId) : Option OpenEvent :=
  (m.find? (fun p => p.1 == k)).map (·.2)

/-- Insert into the open-events `BTreeMap` (`insert`): replaces the entry
when the key is present, otherwise adds exactly one new entry. -/
def mapInsert (m : List (EventId × OpenEvent)) (k : EventId) (v : OpenEvent) :
    List (EventId × OpenEvent) :=
  if mapContains m k then m.map (fun p => if p.1 == k then (k, v) else p)
  else m ++ [(k, v)]

/-- Removal from the open-events `BTreeMap` (`remove`). -/
def mapRemove (m : List (EventId × OpenEvent)) (k : EventId) :
    List (EventId × OpenEvent) :=
  m.filter (fun p => p.1 != k)

/-- Auto-increment id assigned by the storage layer on insert
(`qxsql.create_record` returning the generated primary key): one more
than the largest id in the table. -/
def nextEventId (db : List EventRow) : EventId :=
  db.foldl (fun m r => max m r.id) 0 + 1

/-- The `State::create_event` method of `src/state.rs` lines 19-36: reject
an empty owner, otherwise build the `EventData` with empty name, the
current time, the given owner and `is_local = true`, and insert the row
(serialized data blob plus generated api token) into the `events` store.
The clock value `now` and the generated token are explicit inputs. -/
def create_event (st : State) (owner : String) (now : DateTimeUtc)
    (api_token : String) : State × Except String (EventId × String) :=
  if owner = "" then (st, .error "Owner cannot be empty")
  else
    let event_data : EventData := { name := "", date := now, owner := owner, is_local := true }
    let event_id := nextEventId st.db
    ({ st with db := st.db ++ [⟨event_id, event_data, api_token⟩] },
      .ok (event_id, api_token))

/-- The `State::event_data_from_sql` method of `src/state.rs` lines 82-96:
read the row by id and return the deserialized data with the token. -/
def event_data_from_sql (db : List EventRow) (event_id : EventId) :
    Except String (EventData × String) :=
  match db.find? (fun r => r.id == event_id) with
  | some r => .ok (r.data, r.api_token)
  | none => .error ("Event id: " ++ toString event_id ++ " not found")

/-- The `State::open_event` method of `src/state.rs` lines 38-61: a no-op
when the id is already in `open_events`; otherwise read the persisted
row; when `is_local`, run the per-event database migration and spawn the
`qxsqld` child (both external effects, their outcomes passed as
`migrateOk` / `spawnOk`, the fresh pid as `newPid`) and insert the entry
holding the child handle; when not local, insert the entry without a
process.  The returned flag records whether a child was spawned. -/
def open_event (st : State) (event_id : EventId) (migrateOk spawnOk : Bool)
    (newPid : Nat) : Except String (State × Bool) :=
  if mapContains st.open_events event_id then .ok (st, false)
  else
    match event_data_from_sql st.db event_id with
    | .error e => .error e
    | .ok (event_data, _api_token) =>
      if event_data.is_local then
        if migrateOk then
          if spawnOk then
            .ok ({ st with
                    open_events := mapInsert st.open_events event_id ⟨event_data, some newPid⟩,
                    running := newPid :: st.running }, true)
          else .error "spawn failed"
        else .error "migrate failed"
      else
        .ok ({ st with
                open_events := mapInsert st.open_events event_id ⟨event_data, none⟩ }, false)

/-- The `State::close_event` method of `src/state.rs` lines 62-71: remove
the entry (a no-op returning `Ok` when absent); when the removed entry
owned a child process, kill it and await its exit status, with the two
fallible OS calls modelled by `killOk` / `waitOk`.  The `?` operators sit
after the removal, so a kill or wait failure surfaces as an error but the
entry is gone either way; a successful kill takes the pid out of the OS
process table. -/
def close_event (st : State) (event_id : EventId) (killOk waitOk : Bool) :
    State × Except String Unit :=
  match mapLookup st.open_events event_id with
  | none => (st, .ok ())
  | some ev =>
    let st1 := { st with open_events := mapRemove st.open_events event_id }
    match ev.qxsql_process with
    | none => (st1, .ok ())
    | some pid =>
      if killOk then
        let st2 := { st1 with running := st1.running.filter (fun p => p != pid) }
        if waitOk then (st2, .ok ()) else (st2, .error "wait failed")
      else (st1, .error "kill failed")

/-- Dynamic RPC value (`shvproto::RpcValue`), restricted to the variants
exercised by the embedded code: unit results (`Null`), booleans (used by
the `lsmod` signals), integers, doubles, strings, date-times, blobs,
lists and string-keyed maps. -/
inductive RpcVal where
  | null
  | bool (b : Bool)
  | int (i : Int)
  | double (d : Float)
  | string (s : String)
  | dateTime (t : DateTimeUtc)
  | blob (b : List Nat)
  | list (xs : List RpcVal)
  | map (m : List (String × RpcVal))

/-- Lookup of a key in an `RpcValue` map. -/
def rpcMapGet (m : List (String × RpcVal)) (k : String) : Option RpcVal :=
  (m.find? (fun p => p.1 == k)).map (·.2)

/-- Field list of the serde serialization of `EventData`
(`shvproto::to_rpcvalue` in the `From<&EventData> for RpcValue` impl of
`src/state.rs`): the struct fields in declaration order under their Rust
names.  There is no token key, because `EventData` has no token field. -/
def infoFields (d : EventData) : List (String × RpcVal) :=
  [("name", .string d.name),
   ("date", .string (to_rfc3339 d.date)),
   ("owner", .string d.owner),
   ("is_local", .bool d.is_local)]

/-- The `RpcValue::from(&EventData)` conversion used by the `info` arm. -/
def EventData.toRpcValue (d : EventData) : RpcVal :=
  .map (infoFields d)

/-- The `METH_EVENT_INFO` arm of `request_handler` in `src/eventnode.rs`
lines 163-168: look the id up in `open_events`, error with
`Event not found` when absent, otherwise return the cloned `EventData`
converted to an `RpcValue`. -/
def event_info (st : State) (event_id : EventId) : Except String RpcVal :=
  match mapLookup st.open_events event_id with
  | none => .error "Event not found"
  | some ev => .ok ev.data.toRpcValue

/-- The configured mount-point prefix for events,
`Config::events_mount_point` (default `test/qx/event` in
`src/config.rs`). -/
def events_mount_point : String := "test/qx/event"

/-- The externally visible mount point built for an event in the
`createEvent` arm of `src/eventnode.rs` line 128. -/
def event_mount_point_str (event_id : EventId) : String :=
  events_mount_point ++ "/" ++ toString event_id

/-- Result of the `METH_OPEN_EVENT` arm of `request_handler` in
`src/eventnode.rs` lines 137-142: run `open_event` and, on success,
answer with `RpcValue::from(())`, i.e. the null value. -/
def open_event_handler (st : State) (event_id : EventId)
    (migrateOk spawnOk : Bool) (newPid : Nat) : Except String (State × RpcVal) :=
  match open_event st event_id migrateOk spawnOk newPid with
  | .error e => .error e
  | .ok (st1, _spawned) => .ok (st1, .null)

/-- ASCII decimal digit test, as in Rust's integer parsing. -/
def isAsciiDigit (c : Char) : Bool :=
  ('0' ≤ c) && (c ≤ '9')

/-- Value of a digit string, most significant digit first. -/
def digitsVal (cs : List Char) : Nat :=
  cs.foldl (fun acc c => acc * 10 + (c.toNat - '0'.toNat)) 0

/-- Smallest `i64` value. -/
def i64Min : Int := -(2 ^ 63)

/-- Largest `i64` value. -/
def i64Max : Int := 2 ^ 63 - 1

/-- Strip the optional leading sign of an integer literal, returning the
sign factor and the remaining characters. -/
def parseSign : List Char → Int × List Char
  | [] => (1, [])
  | c :: rest =>
    if c = '+' then (1, rest)
    else if c = '-' then (-1, rest)
    else (1, c :: rest)

/-- Rust's `str::parse::<i64>` on a character list: an optional `+`/`-`
sign followed by at least one ASCII digit, the value within the `i64`
range; anything else is a parse error (`none`). -/
def parseI64Chars (cs : List Char) : Option Int :=
  match cs with
  | [] => none
  | _ :: _ =>
    let p := parseSign cs
    if p.2.isEmpty then none
    else if p.2.all isAsciiDigit then
      let n : Int := p.1 * (digitsVal p.2 : Int)
      if i64Min ≤ n ∧ n ≤ i64Max then some n else none
    else none

/-- Rust's `str::parse::<i64>` on a string. -/
def rustParseI64 (s : String) : Option Int :=
  parseI64Chars s.data

/-- The node classification of `src/eventnode.rs` lines 12-16: the router
knows only the root node and the per-event node.  There is no subtree
variant. -/
inductive NodeType where
  | Root
  | Event (id : EventId)
deriving Repr, DecidableEq

/-- The `NodeType::from_path` function of `src/eventnode.rs` lines 18-26:
the empty path is the root; otherwise the whole path must parse as an
`i64` event id, and a parse failure is an error (`none`). -/
def NodeType.from_path (path : String) : Option NodeType :=
  if path = "" then some .Root
  else (rustParseI64 path).map NodeType.Event

/-- Outcome of path classification in `request_handler`
(`src/eventnode.rs` lines 103-111): a `from_path` error is answered with
`err_unresolved_request`, otherwise the request proceeds at the
classified node. -/
inductive RouteOutcome where
  | unresolved
  | resolved (node : NodeType)
deriving Repr, DecidableEq

/-- Path classification step of `request_handler` in `src/eventnode.rs`. -/
def route (path : String) : RouteOutcome :=
  match NodeType.from_path path with
  | none => .unresolved
  | some node => .resolved node

/-- Split a character list on `/`, for talking about path segments the
way the specification does. -/
def splitOnSlash : List Char → List (List Char)
  | [] => [[]]
  | c :: rest =>
    match splitOnSlash rest with
    | [] => [[]]
    | s :: ss => if c = '/' then [] :: s :: ss else (c :: s) :: ss

/-- First `/`-separated segment of a path. -/
def first_segment (p : String) : String :=
  String.mk ((splitOnSlash p.data).headD [])

/-- Second `/`-separated segment of a path, when present. -/
def second_segment (p : String) : Option String :=
  (((splitOnSlash p.data).drop 1).head?).map String.mk

/-- SQL parameter / column value
(`async_sqlite::rusqlite::types::Value`). -/
inductive SqlValue where
  | Null
  | Integer (i : Int)
  | Real (r : Float)
  | Text (t : String)
  | Blob (b : List Nat)

/-- Dynamic scalar of the generic SQL layer (`qxsql::DbValue`), with the
variants this repository exercises: the five arms matched in
`convert_dbvalue_to_sql` (`src/sql.rs` lines 22-33) plus the double
variant produced from `ValueRef::Real` in `sql_query`
(`src/sql.rs` line 74). -/
inductive DbValue where
  | Null
  | Int (i : Int)
  | Double (d : Float)
  | String (s : String)
  | DateTime (t : DateTimeUtc)
  | Blob (b : List Nat)

/-- The `convert_dbvalue_to_sql` function of `src/sql.rs` lines 22-33:
strings, integers, date-times (rendered as RFC-3339 text), nulls and
blobs convert; every other variant falls into the catch-all arm and is a
hard `ToSqlConversionFailure` error. -/
def convert_dbvalue_to_sql (key : String) (value : DbValue) :
    Except String SqlValue :=
  match value with
  | .String s => .ok (.Text s)
  | .Int i => .ok (.Integer i)
  | .DateTime dt => .ok (.Text (to_rfc3339 dt))
  | .Null => .ok .Null
  | .Blob b => .ok (.Blob b)
  | _ => .error ("Unsupported value type for field " ++ key)

/-- The per-field conversion inside `update_table` in `src/events.rs`
lines 107-129: only strings, integers, date-times and nulls convert;
every other `RpcValue` variant (booleans, doubles, blobs, lists, maps)
is a hard `ToSqlConversionFailure` error. -/
def update_table_convert (key : String) (value : RpcVal) :
    Except String SqlValue :=
  match value with
  | .string s => .ok (.Text s)
  | .int i => .ok (.Integer i)
  | .dateTime dt => .ok (.Text (to_rfc3339 dt))
  | .null => .ok .Null
  | _ => .error ("Unsupported value type for field " ++ key)

/-- Declared constraints of one column of the `events` table in the
application database. -/
structure ColumnDef where
  name : String
  is_primary_key : Bool
  is_unique : Bool
deriving Repr, DecidableEq

/-- The `events` table created by `MIGRATION_ARRAY` in `src/migrate.rs`
lines 8-27: `id INTEGER PRIMARY KEY AUTOINCREMENT`, then `name`, `date`,
`owner` and `api_token`, all plain `TEXT` columns.  Only the primary key
carries a uniqueness constraint; `api_token` carries none. -/
def events_table_columns : List ColumnDef :=
  [⟨"id", true, false⟩,
   ⟨"name", false, false⟩,
   ⟨"date", false, false⟩,
   ⟨"owner", false, false⟩,
   ⟨"api_token", false, false⟩]

/-- A stored row of the `events` table, keyed by column name. -/
abbrev EventsDbRow := List (String × String)

/-- Value of a column in a stored row (the empty string standing for SQL
`NULL`, which no constraint below inspects). -/
def rowGet (r : EventsDbRow) (col : String) : String :=
  (((r.find? (fun p => p.1 == col)).map (·.2)).getD "")

/-- Whether SQLite accepts inserting `r` into a table holding `rows`
under the declared column constraints: for every column declared
`PRIMARY KEY` or `UNIQUE`, no existing row may already hold the new
row's value in that column.  Columns without such a declaration admit
duplicates. -/
def insert_allowed (cols : List ColumnDef) (rows : List EventsDbRow)
    (r : EventsDbRow) : Bool :=
  cols.all (fun c =>
    !(c.is_primary_key || c.is_unique)
    || rows.all (fun x => !(rowGet x c.name == rowGet r c.name)))

/-- C5: calling `create_event` with the empty string as owner always
fails with the validation error `Owner cannot be empty` and performs no
storage mutation — the state (the `events` rows and the open-events map)
is returned unchanged. -/
theorem create_event_empty_owner_rejected (st : State) (now : DateTimeUtc)
    (token : String) :
    create_event st "" now token = (st, Except.error "Owner cannot be empty") := by
  rfl

/-- C3 counterexample: in the schema created by `MIGRATION_ARRAY` the
`api_token` column carries no uniqueness constraint, and inserting a row
whose `api_token` duplicates an existing row's token is accepted by the
storage layer. -/
theorem events_api_token_not_unique :
    ((events_table_columns.find? (fun c => c.name == "api_token")).map
        (·.is_unique) = some false)
    ∧ insert_allowed events_table_columns
        [[("id", "1"), ("name", ""), ("date", ""), ("owner", "alice"), ("api_token", "tok")]]
        [("id", "2"), ("name", ""), ("date", ""), ("owner", "bob"), ("api_token", "tok")]
      = true :=
  ⟨rfl, rfl⟩

/-- C3 amended: `api_token` is a plain column of the persisted `events`
table with no uniqueness constraint; only the `id` primary key is
constrained, so the storage layer accepts two distinct rows (different
ids) holding the same `api_token` value. -/
theorem events_schema_admits_duplicate_api_token :
    events_table_columns.all
        (fun c => !(c.is_unique) || c.name == "id") = true
    ∧ insert_allowed events_table_columns
        [[("id", "1"), ("api_token", "tok")]]
        [("id", "2"), ("api_token", "tok")] = true
    ∧ insert_allowed events_table_columns
        [[("id", "1"), ("api_token", "tok")]]
        [("id", "1"), ("api_token", "other")] = false :=
  ⟨rfl, rfl, rfl⟩

/-- C7 counterexample: a double-tagged dynamic scalar does not convert to
a SQL parameter value — it falls into the catch-all arm of
`convert_dbvalue_to_sql` and errors; likewise, on the `update_table`
path a boolean-tagged value errors. -/
theorem double_and_bool_conversion_fails :
    convert_dbvalue_to_sql "x" (DbValue.Double 1.5)
      = Except.error "Unsupported value type for field x"
    ∧ update_table_convert "x" (RpcVal.bool true)
      = Except.error "Unsupported value type for field x" :=
  ⟨rfl, rfl⟩

/-- C7 amended: `convert_dbvalue_to_sql` succeeds exactly for the null,
signed-integer, UTF-8 string, timestamp (rendered as RFC-3339 text) and
blob tags, while a double-tagged value returns a hard conversion error
(never a silently truncated value); the `update_table` conversion
additionally rejects booleans, doubles and blobs with the same hard
error. -/
theorem dbvalue_conversion_coverage (key : String) :
    convert_dbvalue_to_sql key DbValue.Null = Except.ok SqlValue.Null
    ∧ (∀ i, convert_dbvalue_to_sql key (DbValue.Int i)
        = Except.ok (SqlValue.Integer i))
    ∧ (∀ s, convert_dbvalue_to_sql key (DbValue.String s)
        = Except.ok (SqlValue.Text s))
    ∧ (∀ t, convert_dbvalue_to_sql key (DbValue.DateTime t)
        = Except.ok (SqlValue.Text (to_rfc3339 t)))
    ∧ (∀ b, convert_dbvalue_to_sql key (DbValue.Blob b)
        = Except.ok (SqlValue.Blob b))
    ∧ (∀ d, convert_dbvalue_to_sql key (DbValue.Double d)
        = Except.error ("Unsupported value type for field " ++ key))
    ∧ (∀ b, update_table_convert key (RpcVal.bool b)
        = Except.error ("Unsupported value type for field " ++ key))
    ∧ (∀ d, update_table_convert key (RpcVal.double d)
        = Except.error ("Unsupported value type for field " ++ key))
    ∧ (∀ b, update_table_convert key (RpcVal.blob b)
        = Except.error ("Unsupported value type for field " ++ key)) :=
  ⟨rfl, fun _ => rfl, fun _ => rfl, fun _ => rfl, fun _ => rfl,
   fun _ => rfl, fun _ => rfl, fun _ => rfl, fun _ => rfl⟩

/-- C4 counterexample: on a state holding a local event with id 1, a
successful root-level `openEvent` call answers with the null (unit)
value, which is not the externally visible mount-point string for that
event. -/
theorem open_event_returns_unit_not_mount_point :
    open_event_handler ⟨[⟨1, ⟨"", 0, "alice", true⟩, "tok"⟩], [], []⟩ 1 true true 7
      = Except.ok (⟨[⟨1, ⟨"", 0, "alice", true⟩, "tok"⟩],
                    [(1, ⟨⟨"", 0, "alice", true⟩, some 7⟩)], [7]⟩, RpcVal.null)
    ∧ RpcVal.null ≠ RpcVal.string (event_mount_point_str 1) :=
  ⟨rfl, by intro h; exact RpcVal.noConfusion h⟩

/-- C4 amended: whenever the lifecycle `open_event` succeeds, the
root-level `openEvent` handler returns the unit (null) value — the mount
point string is never part of this method's result. -/
theorem open_event_handler_ok_returns_null (st : State) (event_id : EventId)
    (m s : Bool) (p : Nat) (st1 : State) (b : Bool)
    (h : open_event st event_id m s p = Except.ok (st1, b)) :
    open_event_handler st event_id m s p = Except.ok (st1, RpcVal.null) := by
  unfold open_event_handler
  rw [h]

/-- C4 witness: the amended statement applied to a concrete state holding
a non-local event with id 2. -/
theorem open_event_handler_ok_returns_null_witness :
    open_event_handler ⟨[⟨2, ⟨"", 0, "bob", false⟩, "t2"⟩], [], []⟩ 2 true true 9
      = Except.ok (⟨[⟨2, ⟨"", 0, "bob", false⟩, "t2"⟩],
                    [(2, ⟨⟨"", 0, "bob", false⟩, none⟩)], []⟩, RpcVal.null) :=
  open_event_handler_ok_returns_null _ 2 true true 9 _ false rfl

/-- C1 counterexample: on a state whose open-events map holds event 1,
the `info` method returns the serialized `EventData`, and that metadata
map contains no `api_token` key and no `token` key at all — in
particular no token field masked to the empty string. -/
theorem info_has_no_masked_token_field :
    event_info ⟨[], [(1, ⟨⟨"Run", 0, "alice", true⟩, some 7⟩)], [7]⟩ 1
      = Except.ok (RpcVal.map (infoFields ⟨"Run", 0, "alice", true⟩))
    ∧ rpcMapGet (infoFields ⟨"Run", 0, "alice", true⟩) "api_token" = none
    ∧ rpcMapGet (infoFields ⟨"Run", 0, "alice", true⟩) "token" = none :=
  ⟨rfl, rfl, rfl⟩

/-- C1 amended: for every event id present in the open-events map, the
`info` method returns the event metadata map whose keys are exactly
`name`, `date`, `owner` and `is_local`; it has no token field at all
(the in-memory `OpenEvent` record does not even hold the token), so the
real api token value never leaves over this call. -/
theorem info_returns_tokenless_metadata (st : State) (event_id : EventId)
    (ev : OpenEvent) (h : mapLookup st.open_events event_id = some ev) :
    event_info st event_id = Except.ok (RpcVal.map (infoFields ev.data))
    ∧ (infoFields ev.data).map (·.1) = ["name", "date", "owner", "is_local"]
    ∧ rpcMapGet (infoFields ev.data) "api_token" = none
    ∧ rpcMapGet (infoFields ev.data) "token" = none := by
  refine ⟨?_, rfl, rfl, rfl⟩
  unfold event_info
  rw [h]
  rfl

/-- C1 witness: the amended statement applied to a concrete state holding
a non-local open event with id 3. -/
theorem info_returns_tokenless_metadata_witness :
    event_info ⟨[], [(3, ⟨⟨"X", 5, "carol", false⟩, none⟩)], []⟩ 3
      = Except.ok (RpcVal.map (infoFields ⟨"X", 5, "carol", false⟩))
    ∧ (infoFields (⟨"X", 5, "carol", false⟩ : EventData)).map (·.1)
      = ["name", "date", "owner", "is_local"]
    ∧ rpcMapGet (infoFields ⟨"X", 5, "carol", false⟩) "api_token" = none
    ∧ rpcMapGet (infoFields ⟨"X", 5, "carol", false⟩) "token" = none :=
  info_returns_tokenless_metadata _ 3 ⟨⟨"X", 5, "carol", false⟩, none⟩ rfl

lemma string_mk_data (s : String) : String.mk s.data = s := by
  cases s
  rfl

lemma all_isAsciiDigit_eq_false {cs : List Char} (h : '/' ∈ cs) :
    cs.all isAsciiDigit = false := by
  cases hall : cs.all isAsciiDigit
  · rfl
  · exact absurd (List.all_eq_true.mp hall _ h) (by decide)

lemma slash_mem_parseSign {cs : List Char} (h : '/' ∈ cs) :
    '/' ∈ (parseSign cs).2 := by
  cases cs with
  | nil => cases h
  | cons c rest =>
    unfold parseSign
    by_cases h1 : c = '+'
    · subst h1
      rcases List.mem_cons.mp h with h2 | h2
      · exact absurd h2 (by decide)
      · simpa using h2
    · by_cases h2 : c = '-'
      · subst h2
        rcases List.mem_cons.mp h with h3 | h3
        · exact absurd h3 (by decide)
        · simpa using h3
      · simpa [h1, h2] using h

lemma parseI64Chars_eq_none_of_slash {cs : List Char} (h : '/' ∈ cs) :
    parseI64Chars cs = none := by
  cases cs with
  | nil => cases h
  | cons c rest =>
    have hall := all_isAsciiDigit_eq_false (slash_mem_parseSign h)
    simp [parseI64Chars, hall]

lemma rustParseI64_eq_none_of_slash {s : String} (h : '/' ∈ s.data) :
    rustParseI64 s = none :=
  parseI64Chars_eq_none_of_slash h

lemma route_eq_unresolved_of_parse_none {p : String} (hne : p ≠ "")
    (hp : rustParseI64 p = none) : route p = RouteOutcome.unresolved := by
  unfold route NodeType.from_path
  rw [if_neg hne, hp]
  rfl

lemma splitOnSlash_eq_single {cs : List Char} (h : '/' ∉ cs) :
    splitOnSlash cs = [cs] := by
  induction cs with
  | nil => rfl
  | cons c rest ih =>
    have hc : c ≠ '/' := fun hEq => h (hEq ▸ List.mem_cons_self c rest)
    have hrest : '/' ∉ rest := fun hm => h (List.mem_cons_of_mem _ hm)
    unfold splitOnSlash
    rw [ih hrest]
    simp [hc]

/-- C2 counterexample: the path `5/db/x` is not classified as an event
subtree and is not delegated anywhere — `NodeType::from_path` has no
subtree variant and fails to parse the whole path as an integer, so the
router answers `err_unresolved_request`. -/
theorem path_5_db_x_not_delegated :
    NodeType.from_path "5/db/x" = none
    ∧ route "5/db/x" = RouteOutcome.unresolved := by
  exact ⟨rfl, rfl⟩

/-- C2 amended: the router classifies only the empty path (root) and a
path that parses entirely as a signed 64-bit integer (event node); any
path containing a `/` — in particular every `id/db/remainder` shape —
fails `from_path` and is answered as an unresolved request, with no
proxy delegation. -/
theorem slash_paths_are_unresolved (p : String) (h : '/' ∈ p.data) :
    route p = RouteOutcome.unresolved := by
  have hne : p ≠ "" := by
    intro hEq
    subst hEq
    exact absurd h (by decide)
  exact route_eq_unresolved_of_parse_none hne (rustParseI64_eq_none_of_slash h)

/-- C2 witness: the amended statement applied to the concrete path
`7/db/competitors`. -/
theorem slash_paths_are_unresolved_witness :
    route "7/db/competitors" = RouteOutcome.unresolved :=
  slash_paths_are_unresolved "7/db/competitors" (by decide)

/-- C8: every non-empty path whose first segment does not parse as a
signed 64-bit integer, or whose second segment (when present) is not
`db`, is answered with the unresolved-request outcome, not a generic
method-call error. -/
theorem invalid_paths_are_unresolved (p : String) (hne : p ≠ "")
    (h : rustParseI64 (first_segment p) = none
       ∨ ∃ s, second_segment p = some s ∧ s ≠ "db") :
    route p = RouteOutcome.unresolved := by
  by_cases hs : '/' ∈ p.data
  · exact route_eq_unresolved_of_parse_none hne (rustParseI64_eq_none_of_slash hs)
  · have hsingle := splitOnSlash_eq_single hs
    rcases h with h1 | ⟨s, hs2, _⟩
    · have hfirst : first_segment p = p := by
        unfold first_segment
        rw [hsingle]
        exact string_mk_data p
      rw [hfirst] at h1
      exact route_eq_unresolved_of_parse_none hne h1
    · unfold second_segment at hs2
      rw [hsingle] at hs2
      exact absurd hs2 (by simp)

/-- C8 witness: the statement applied to the concrete invalid paths
`abc` (first segment not an integer) and `5/x/y` (second segment not
`db`). -/
theorem invalid_paths_are_unresolved_witness :
    route "abc" = RouteOutcome.unresolved
    ∧ route "5/x/y" = RouteOutcome.unresolved :=
  ⟨invalid_paths_are_unresolved "abc" (by decide) (Or.inl (by decide)),
   invalid_paths_are_unresolved "5/x/y" (by decide)
     (Or.inr ⟨"x", by decide, by decide⟩)⟩

lemma not_mem_filter_self (l : List Nat) (pid : Nat) :
    pid ∉ l.filter (fun p => p != pid) := by
  intro h
  have hp := List.of_mem_filter h
  simp at hp

lemma mapLookup_mapRemove (m : List (EventId × OpenEvent)) (k : EventId) :
    mapLookup (mapRemove m k) k = none := by
  have hfind : (mapRemove m k).find? (fun p => p.1 == k) = none := by
    rw [List.find?_eq_none]
    intro x hx
    have hne := List.of_mem_filter hx
    simpa using hne
  simp [mapLookup, hfind]

lemma mapContains_iff_mem_keys {m : List (EventId × OpenEvent)} {k : EventId} :
    mapContains m k = true ↔ k ∈ m.map (·.1) := by
  simp only [mapContains, List.any_eq_true, List.mem_map]
  constructor
  · rintro ⟨p, hp, hpk⟩
    exact ⟨p, hp, by simpa using hpk⟩
  · rintro ⟨p, hp, hpk⟩
    exact ⟨p, hp, by simpa using hpk⟩

lemma mapContains_mapInsert (m : List (EventId × OpenEvent)) (k : EventId)
    (v : OpenEvent) : mapContains (mapInsert m k v) k = true := by
  unfold mapInsert
  by_cases h : mapContains m k = true
  · rw [if_pos h]
    have h2 : ∃ p ∈ m, p.1 = k := by
      simpa [mapContains, List.any_eq_true] using h
    rcases h2 with ⟨p, hp, hpk⟩
    have himg : (k, v) ∈ m.map (fun q => if q.1 == k then (k, v) else q) :=
      List.mem_map.mpr ⟨p, hp, by simp [hpk]⟩
    simp only [mapContains, List.any_eq_true]
    exact ⟨(k, v), himg, by simp⟩
  · rw [if_neg h]
    simp [mapContains]

lemma nodup_keys_mapInsert {m : List (EventId × OpenEvent)} {k : EventId}
    {v : OpenEvent} (hnd : (m.map (·.1)).Nodup) :
    ((mapInsert m k v).map (·.1)).Nodup := by
  unfold mapInsert
  by_cases h : mapContains m k = true
  · rw [if_pos h]
    have hkeys : (m.map (fun q => if q.1 == k then (k, v) else q)).map (·.1)
        = m.map (·.1) := by
      rw [List.map_map]
      apply List.map_congr_left
      intro q _
      by_cases hq : q.1 = k
      · simp [hq]
      · simp [hq]
    rw [hkeys]
    exact hnd
  · rw [if_neg h]
    have hk : k ∉ m.map (·.1) := fun hm =>
      h (mapContains_iff_mem_keys.mpr hm)
    simp only [List.map_append, List.map_cons, List.map_nil]
    rw [List.nodup_append_comm, List.singleton_append]
    exact List.nodup_cons.mpr ⟨hk, hnd⟩

lemma filter_key_length_one {m : List (EventId × OpenEvent)} {k : EventId}
    (hnd : (m.map (·.1)).Nodup) (hc : mapContains m k = true) :
    (m.filter (fun q => q.1 == k)).length = 1 := by
  induction m with
  | nil => simp [mapContains] at hc
  | cons p rest ih =>
    simp only [List.map_cons, List.nodup_cons] at hnd
    by_cases h : p.1 = k
    · have hrest : rest.filter (fun q => q.1 == k) = [] := by
        rw [List.filter_eq_nil_iff]
        intro q hq
        intro hqk
        exact hnd.1 (List.mem_map.mpr ⟨q, hq, by rw [h]; simpa using hqk⟩)
      rw [List.filter_cons]
      simp [h, hrest]
    · have hc2 : mapContains rest k = true := by
        rcases (by simpa [mapContains, List.any_eq_true] using hc :
            ∃ q ∈ p :: rest, q.1 = k) with ⟨q, hq, hqk⟩
        rcases List.mem_cons.mp hq with h1 | h1
        · exact absurd (h1 ▸ hqk) h
        · simp only [mapContains, List.any_eq_true]
          exact ⟨q, h1, by simpa using hqk⟩
      rw [List.filter_cons]
      have hbeq : (p.1 == k) = false := by simpa using h
      simp only [hbeq, Bool.false_eq_true, if_neg, ite_false]
      exact ih hnd.2 hc2

lemma open_event_already_open {st : State} {id : EventId} {m s : Bool} {p : Nat}
    (h : mapContains st.open_events id = true) :
    open_event st id m s p = .ok (st, false) := by
  unfold open_event
  rw [if_pos h]

lemma open_event_state_shape {st : State} {id : EventId} {m s : Bool} {p : Nat}
    {st1 : State} {b : Bool} (h : open_event st id m s p = .ok (st1, b)) :
    (st1 = st ∧ mapContains st.open_events id = true)
    ∨ ∃ v, st1.open_events = mapInsert st.open_events id v := by
  unfold open_event at h
  split at h
  · rename_i hc
    left
    refine ⟨?_, hc⟩
    have := (Except.ok.injEq _ _).mp h
    exact ((Prod.mk.injEq _ _ _ _).mp this).1.symm
  · split at h
    · exact absurd h (by simp)
    · split at h
      · split at h
        · split at h
          · right
            have := (Except.ok.injEq _ _).mp h
            have h1 := ((Prod.mk.injEq _ _ _ _).mp this).1
            exact ⟨_, by rw [← h1]⟩
          · exact absurd h (by simp)
        · exact absurd h (by simp)
      · right
        have := (Except.ok.injEq _ _).mp h
        have h1 := ((Prod.mk.injEq _ _ _ _).mp this).1
        exact ⟨_, by rw [← h1]⟩

lemma open_event_contains {st : State} {id : EventId} {m s : Bool} {p : Nat}
    {st1 : State} {b : Bool} (h : open_event st id m s p = .ok (st1, b)) :
    mapContains st1.open_events id = true := by
  rcases open_event_state_shape h with ⟨rfl, hc⟩ | ⟨v, hv⟩
  · exact hc
  · rw [hv]
    exact mapContains_mapInsert _ _ _

lemma open_event_nodup {st : State} {id : EventId} {m s : Bool} {p : Nat}
    {st1 : State} {b : Bool} (hnd : (st.open_events.map (·.1)).Nodup)
    (h : open_event st id m s p = .ok (st1, b)) :
    (st1.open_events.map (·.1)).Nodup := by
  rcases open_event_state_shape h with ⟨rfl, _⟩ | ⟨v, hv⟩
  · exact hnd
  · rw [hv]
    exact nodup_keys_mapInsert hnd

/-- C6: opening is idempotent — when the id is already in the open-events
map, `open_event` returns success with the state unchanged and no child
spawned; and after any successful `open_event`, a second call returns
success without modification or spawning, and the map holds exactly one
entry for that id (the key-uniqueness hypothesis is the `BTreeMap`
invariant of the source map type). -/
theorem open_event_idempotent (st : State) (id : EventId)
    (m1 s1 m2 s2 : Bool) (p1 p2 : Nat)
    (hnd : (st.open_events.map (·.1)).Nodup) :
    (mapContains st.open_events id = true →
       open_event st id m1 s1 p1 = .ok (st, false))
    ∧ (∀ st1 b, open_event st id m1 s1 p1 = .ok (st1, b) →
         open_event st1 id m2 s2 p2 = .ok (st1, false)
         ∧ (st1.open_events.filter (fun q => q.1 == id)).length = 1) := by
  constructor
  · exact fun hc => open_event_already_open hc
  · intro st1 b h
    have hc := open_event_contains h
    exact ⟨open_event_already_open hc,
           filter_key_length_one (open_event_nodup hnd h) hc⟩

/-- C6 witness: the statement applied to a concrete state holding a local
event with id 1 in storage; the map ends single-entried after a double
open. -/
theorem open_event_idempotent_witness :
    open_event ⟨[⟨1, ⟨"", 0, "alice", true⟩, "tok"⟩],
                [(1, ⟨⟨"", 0, "alice", true⟩, some 7⟩)], [7]⟩ 1 true true 8
      = .ok (⟨[⟨1, ⟨"", 0, "alice", true⟩, "tok"⟩],
              [(1, ⟨⟨"", 0, "alice", true⟩, some 7⟩)], [7]⟩, false)
    ∧ (([(1, (⟨⟨"", 0, "alice", true⟩, some 7⟩ : OpenEvent))]).filter
        (fun q => q.1 == (1 : EventId))).length = 1 :=
  ⟨((open_event_idempotent _ 1 true true true true 8 8 (by simp)).1 (by rfl)),
   ((open_event_idempotent
       ⟨[⟨1, ⟨"", 0, "alice", true⟩, "tok"⟩], [], []⟩ 1 true true true true 7 8
       (by simp)).2 _ true (by rfl)).2⟩

/-- C9: closing a non-open id is a no-op returning success; closing an
open id always removes the map entry, whether or not killing or awaiting
the child fails; and when a close of an event owning a child process
returns success, that child's pid is no longer in the process table. -/
theorem close_event_removes_entry (st : State) (id : EventId) (k w : Bool) :
    (mapLookup st.open_events id = none →
       close_event st id k w = (st, Except.ok ()))
    ∧ (∀ ev, mapLookup st.open_events id = some ev →
       mapLookup (close_event st id k w).1.open_events id = none)
    ∧ (∀ ev pid, mapLookup st.open_events id = some ev →
       ev.qxsql_process = some pid →
       (close_event st id k w).2 = Except.ok () →
       pid ∉ (close_event st id k w).1.running) := by
  refine ⟨?_, ?_, ?_⟩
  · intro h
    simp [close_event, h]
  · intro ev h
    cases hp : ev.qxsql_process with
    | none => simp [close_event, h, hp, mapLookup_mapRemove]
    | some pid =>
      cases k <;> cases w <;> simp [close_event, h, hp, mapLookup_mapRemove]
  · intro ev pid h hp hok
    cases k with
    | false => simp [close_event, h, hp] at hok
    | true =>
      cases w with
      | false => simp [close_event, h, hp] at hok
      | true => simp [close_event, h, hp, List.mem_filter]

/-- C9 witness: the three parts applied to concrete states — an empty
map, an open event whose kill fails (the entry is still removed), and an
open local event closed successfully (pid 7 is gone from the process
table). -/
theorem close_event_removes_entry_witness :
    close_event ⟨[], [], []⟩ 4 true true = (⟨[], [], []⟩, Except.ok ())
    ∧ mapLookup (close_event ⟨[], [(1, ⟨⟨"", 0, "o", true⟩, some 7⟩)], [7]⟩
        1 false true).1.open_events 1 = none
    ∧ 7 ∉ (close_event ⟨[], [(1, ⟨⟨"", 0, "o", true⟩, some 7⟩)], [7]⟩
        1 true true).1.running :=
  ⟨(close_event_removes_entry ⟨[], [], []⟩ 4 true true).1 rfl,
   (close_event_removes_entry _ 1 false true).2.1 ⟨⟨"", 0, "o", true⟩, some 7⟩ rfl,
   (close_event_removes_entry _ 1 true true).2.2 ⟨⟨"", 0, "o", true⟩, some 7⟩ 7
     rfl rfl rfl⟩

lemma foldl_max_init_le (l : List EventRow) (init : EventId) :
    init ≤ l.foldl (fun m x => max m x.id) init := by
  induction l generalizing init with
  | nil => exact le_refl _
  | cons x xs ih => exact le_trans (le_max_left init x.id) (ih _)

lemma mem_le_foldl_max {l : List EventRow} {r : EventRow} (hr : r ∈ l)
    (init : EventId) : r.id ≤ l.foldl (fun m x => max m x.id) init := by
  induction l generalizing init with
  | nil => cases hr
  | cons x xs ih =>
    rcases List.mem_cons.mp hr with h1 | h1
    · subst h1
      exact le_trans (le_max_right init r.id) (foldl_max_init_le xs _)
    · exact ih h1 _

lemma mem_id_lt_nextEventId {db : List EventRow} {r : EventRow} (hr : r ∈ db) :
    r.id < nextEventId db :=
  lt_of_le_of_lt (mem_le_foldl_max hr 0) (lt_add_one _)

lemma find?_append_of_none {α : Type} {p : α → Bool} {l1 l2 : List α}
    (h : ∀ x ∈ l1, p x = false) : (l1 ++ l2).find? p = l2.find? p := by
  induction l1 with
  | nil => rfl
  | cons x xs ih =>
    rw [List.cons_append, List.find?_cons_of_neg, ih]
    · intro y hy
      exact h y (List.mem_cons_of_mem _ hy)
    · simp [h x (List.mem_cons_self x xs)]

lemma event_data_from_sql_after_create (db : List EventRow)
    (data : EventData) (token : String) :
    event_data_from_sql (db ++ [⟨nextEventId db, data, token⟩]) (nextEventId db)
      = .ok (data, token) := by
  unfold event_data_from_sql
  rw [find?_append_of_none]
  · simp
  · intro r hr
    have := mem_id_lt_nextEventId hr
    simp only [beq_eq_false_iff_ne, ne_eq]
    exact fun hEq => absurd hEq (ne_of_lt this)

/-- C10: every event created through `create_event` is persisted with
`is_local = true`, an empty name and the call-time timestamp; since
`open_event` branches on the stored `is_local`, any subsequent
successful `open_event` of such an event that is not already open takes
the local branch and spawns the child — the remote branch is never
reached for events created via this interface. -/
theorem created_events_are_local (st : State) (owner : String)
    (now : DateTimeUtc) (token : String) (h : owner ≠ "") :
    ∃ st1 id,
      create_event st owner now token = (st1, .ok (id, token))
      ∧ event_data_from_sql st1.db id
        = .ok ({ name := "", date := now, owner := owner, is_local := true }, token)
      ∧ ∀ m s p st2 b, open_event st1 id m s p = .ok (st2, b) →
          mapContains st1.open_events id = false → b = true := by
  refine ⟨{ st with db := st.db ++ [⟨nextEventId st.db,
      { name := "", date := now, owner := owner, is_local := true }, token⟩] },
    nextEventId st.db, ?_, ?_, ?_⟩
  · unfold create_event
    rw [if_neg h]
  · exact event_data_from_sql_after_create st.db _ token
  · intro m s p st2 b hopen hnc
    unfold open_event at hopen
    rw [hnc] at hopen
    simp only [Bool.false_eq_true, if_false] at hopen
    rw [event_data_from_sql_after_create st.db _ token] at hopen
    simp only [] at hopen
    cases m with
    | false => simp at hopen
    | true =>
      cases s with
      | false => simp at hopen
      | true =>
        simp at hopen
        exact hopen.2

/-- C10 witness: the statement applied to an initially empty state with
owner `alice`. -/
theorem created_events_are_local_witness :
    ∃ st1 id,
      create_event ⟨[], [], []⟩ "alice" 0 "tok" = (st1, .ok (id, "tok"))
      ∧ event_data_from_sql st1.db id
        = .ok ({ name := "", date := 0, owner := "alice", is_local := true }, "tok")
      ∧ ∀ m s p st2 b, open_event st1 id m s p = .ok (st2, b) →
          mapContains st1.open_events id = false → b = true :=
  created_events_are_local ⟨[], [], []⟩ "alice" 0 "tok" (by decide)
